import Mathlib

/-!
A shallow embedding of src/src/routes/+page.svelte: the reusable
IntersectionObserver Svelte action (attach, batched observer callback,
update with option merging, destroy) and the page state logic (the
capped event log, lazy image loading with its asynchronous image onload
continuation, the reveal set and the scroll-spy section marker).
JS numbers are modelled as rationals, JS objects used as string-keyed
maps as functions into Option, and the DOM element type and the
callback-function values are abstract type parameters.
-/

namespace IntersectionLab

variable {τ κ : Type} [DecidableEq τ] [DecidableEq κ]

/-- threshold value of the action params: number | number[]. -/
inductive Threshold where
  | single (value : ℚ)
  | multi (values : List ℚ)
deriving DecidableEq

/-- An IntersectionObserverEntry, reduced to the fields the page reads. -/
structure Entry (τ : Type) where
  target : τ
  isIntersecting : Bool
  intersectionRatio : ℚ
deriving DecidableEq

/-- IntersectionParams from the script: every field is optional.  A field
of value none is absent from the JS object; root is doubly optional
because its present value may itself be null (root?: Element | null). -/
structure IntersectionParams (τ κ : Type) where
  threshold : Option Threshold := none
  root : Option (Option τ) := none
  rootMargin : Option String := none
  once : Option Bool := none
  onEnter : Option κ := none
  onLeave : Option κ := none
deriving DecidableEq

/-- IntersectionObserverInit: the opts object the observer is built with. -/
structure ObserverInit (τ : Type) where
  root : Option τ
  rootMargin : String
  threshold : Threshold
deriving DecidableEq

/-- The closure state of one attached intersect action: the node, the
mutable opts and current bindings, and the set of targets the live
observer is watching. -/
structure ActionState (τ κ : Type) where
  node : τ
  opts : ObserverInit τ
  current : IntersectionParams τ κ
  watched : List τ
deriving DecidableEq

/-- An invocation of a callback value with an entry. -/
inductive CbEvent (τ κ : Type) where
  | invoke (cb : κ) (entry : Entry τ)
deriving DecidableEq

/-- The entry a callback event was invoked with. -/
def CbEvent.entryOf : CbEvent τ κ → Entry τ
  | .invoke _ e => e

/-- intersect(node, params): build opts with the ?? defaults
(params.root ?? null, params.rootMargin ?? '0px',
params.threshold ?? 0.25), copy params into current, and init():
create the observer and observe(node). -/
def intersect (node : τ) (params : IntersectionParams τ κ) : ActionState τ κ :=
  { node := node
    opts :=
      { root :=
          match params.root with
          | some (some r) => some r
          | _ => none
        rootMargin := params.rootMargin.getD "0px"
        threshold := params.threshold.getD (Threshold.single (1 / 4)) }
    current := params
    watched := [node] }

/-- One iteration of the observer callback body: if entry.isIntersecting
then current.onEnter?.(entry) and, when current.once is truthy,
observer.unobserve(entry.target); else current.onLeave?.(entry). -/
def handleEntry (p : IntersectionParams τ κ) (w : List τ) (e : Entry τ) :
    List τ × List (CbEvent τ κ) :=
  if e.isIntersecting then
    (if p.once = some true then w.filter (fun t => decide (t ≠ e.target)) else w,
      match p.onEnter with
      | some cb => [CbEvent.invoke cb e]
      | none => [])
  else
    (w,
      match p.onLeave with
      | some cb => [CbEvent.invoke cb e]
      | none => [])

/-- entries.forEach over one delivered batch, threading the watched set
and collecting the callback invocations in order. -/
def handleEntries (p : IntersectionParams τ κ) :
    List τ → List (Entry τ) → List τ × List (CbEvent τ κ)
  | w, [] => (w, [])
  | w, e :: es =>
    let r := handleEntry p w e
    let rest := handleEntries p r.1 es
    (rest.1, r.2 ++ rest.2)

/-- Delivery of one batch of entries to the action's observer. -/
def deliver (a : ActionState τ κ) (es : List (Entry τ)) :
    ActionState τ κ × List (CbEvent τ κ) :=
  let r := handleEntries a.current a.watched es
  ({ a with watched := r.1 }, r.2)

/-- update(next): current = spread-merge of current and next, opts
rebuilt with the ?? chains (next.root ?? opts.root ?? null,
next.rootMargin ?? opts.rootMargin ?? '0px',
next.threshold ?? opts.threshold), then init() again: the old observer
is disconnected and a fresh one observes the node. -/
def update (a : ActionState τ κ) (next : IntersectionParams τ κ) : ActionState τ κ :=
  { a with
    current :=
      { threshold :=
          match next.threshold with
          | some t => some t
          | none => a.current.threshold
        root :=
          match next.root with
          | some r => some r
          | none => a.current.root
        rootMargin :=
          match next.rootMargin with
          | some m => some m
          | none => a.current.rootMargin
        once :=
          match next.once with
          | some b => some b
          | none => a.current.once
        onEnter :=
          match next.onEnter with
          | some cb => some cb
          | none => a.current.onEnter
        onLeave :=
          match next.onLeave with
          | some cb => some cb
          | none => a.current.onLeave }
    opts :=
      { root :=
          match next.root with
          | some (some r) => some r
          | some none => a.opts.root
          | none => a.opts.root
        rootMargin := next.rootMargin.getD a.opts.rootMargin
        threshold := next.threshold.getD a.opts.threshold }
    watched := [a.node] }

/-- destroy(): observer?.disconnect(). -/
def destroy (a : ActionState τ κ) : ActionState τ κ :=
  { a with watched := [] }

/-- The callback invocations one entry gives rise to, as the spec
describes them: the current onEnter with the entry when it is
intersecting, the current onLeave with the entry otherwise, nothing when
the respective callback is unset. -/
def entryEvents (p : IntersectionParams τ κ) (e : Entry τ) : List (CbEvent τ κ) :=
  if e.isIntersecting then
    (p.onEnter.map fun cb => CbEvent.invoke cb e).toList
  else
    (p.onLeave.map fun cb => CbEvent.invoke cb e).toList

/-- One gallery card: id, copy text and the two image URLs. -/
structure GalleryItem where
  id : String
  title : String
  description : String
  blur : String
  full : String
deriving DecidableEq

/-- gallery[0]. -/
def aurora : GalleryItem :=
  { id := "aurora"
    title := "Aurora Cache"
    description := "Preload offscreen assets with rootMargin and a single observer."
    blur := "https://images.unsplash.com/photo-1444703686981-a3abbc4d4fe3?auto=format&fit=crop&w=40&q=20&blur=40"
    full := "https://images.unsplash.com/photo-1444703686981-a3abbc4d4fe3?auto=format&fit=crop&w=1400&q=80" }

/-- gallery[1]. -/
def desert : GalleryItem :=
  { id := "desert"
    title := "Desert Streams"
    description := "Observe many targets at once; IO batches them for you."
    blur := "https://images.unsplash.com/photo-1500534314209-a25ddb2bd429?auto=format&fit=crop&w=40&q=20&blur=40"
    full := "https://images.unsplash.com/photo-1500534314209-a25ddb2bd429?auto=format&fit=crop&w=1400&q=80" }

/-- gallery[2]. -/
def city : GalleryItem :=
  { id := "city"
    title := "City Highlights"
    description := "Use threshold arrays to stagger when UI states flip."
    blur := "https://images.unsplash.com/photo-1444084316824-dc26d6657664?auto=format&fit=crop&w=40&q=20&blur=40"
    full := "https://images.unsplash.com/photo-1444084316824-dc26d6657664?auto=format&fit=crop&w=1400&q=80" }

/-- gallery[3]. -/
def forest : GalleryItem :=
  { id := "forest"
    title := "Forest Signals"
    description := "Once-only observations keep observers lean over time."
    blur := "https://images.unsplash.com/photo-1500530855697-b586d89ba3ee?auto=format&fit=crop&w=40&q=20&blur=40"
    full := "https://images.unsplash.com/photo-1500530855697-b586d89ba3ee?auto=format&fit=crop&w=1400&q=80" }

/-- The four gallery cards, in page order. -/
def gallery : List GalleryItem := [aurora, desert, city, forest]

/-- direction field of a log row. -/
inductive Direction where
  | enter
  | leave
deriving DecidableEq

/-- LogEntry of the telemetry list. -/
structure LogEntry where
  id : String
  ratio : ℚ
  direction : Direction
  time : String
deriving DecidableEq

/-- Math.round: round half toward positive infinity. -/
def jsRound (x : ℚ) : ℤ := ⌊x + 1 / 2⌋

/-- Math.round(entry.intersectionRatio * 100) / 100. -/
def roundRatio (r : ℚ) : ℚ := (jsRound (r * 100) : ℚ) / 100

/-- The log record note builds; the formatted wall-clock string produced
by Intl.DateTimeFormat at the call is passed in as time. -/
def mkLog (e : Entry τ) (id : String) (time : String) : LogEntry :=
  { id := id
    ratio := roundRatio e.intersectionRatio
    direction := if e.isIntersecting then Direction.enter else Direction.leave
    time := time }

/-- note(entry, id): logs = [record, ...logs].slice(0, 10). -/
def note (e : Entry τ) (id : String) (time : String) (logs : List LogEntry) :
    List LogEntry :=
  (mkLog e id time :: logs).take 10

/-- Object.fromEntries over string pairs: a later pair overwrites an
earlier one with the same key. -/
def fromEntries (l : List (String × String)) : String → Option String :=
  l.foldl (fun m kv => fun s => if s = kv.1 then some kv.2 else m s) (fun _ => none)

/-- The spread update of a string-keyed object at one key. -/
def objSet (m : String → Option String) (k v : String) : String → Option String :=
  fun s => if s = k then some v else m s

/-- Initial imageSrc: Object.fromEntries(gallery.map(item => [item.id, item.blur])). -/
def initialImageSrc : String → Option String :=
  fromEntries (gallery.map fun item => (item.id, item.blur))

/-- The mutable page state held in the component's runes. -/
structure PageState where
  activeSection : String
  imageSrc : String → Option String
  loadedImages : List String
  revealed : List String
  logs : List LogEntry

/-- The page state right after the script runs. -/
def initialPage : PageState :=
  { activeSection := "overview"
    imageSrc := initialImageSrc
    loadedImages := []
    revealed := []
    logs := [] }

/-- new Set(s).add(a): set insertion on a list kept duplicate-free. -/
def setAdd (s : List String) (a : String) : List String :=
  if a ∈ s then s else a :: s

/-- markRevealed(id, entry?): when the id is not yet revealed, add it and,
when an entry was given, note it; otherwise do nothing. -/
def markRevealed (id : String) (entry : Option (Entry τ)) (time : String)
    (s : PageState) : PageState :=
  if id ∈ s.revealed then s
  else
    { s with
      revealed := setAdd s.revealed id
      logs :=
        match entry with
        | some e => note e id time s.logs
        | none => s.logs }

/-- A continuation the page registers to run later: the onload handler of
the preloading Image created by loadFull. -/
inductive PendingTask (τ : Type) where
  | imageOnload (item : GalleryItem) (entry : Option (Entry τ)) (time : String)
deriving DecidableEq

/-- The gallery item a pending task is about. -/
def taskItem : PendingTask τ → GalleryItem
  | .imageOnload item _ _ => item

/-- loadFull(item, entry?): the synchronous part.  If imageSrc[item.id]
is already item.full, return; otherwise create an Image, set its src and
register the onload handler.  No page state changes synchronously. -/
def loadFull (item : GalleryItem) (entry : Option (Entry τ)) (time : String)
    (s : PageState) : PageState × List (PendingTask τ) :=
  if s.imageSrc item.id = some item.full then (s, [])
  else (s, [PendingTask.imageOnload item entry time])

/-- Running a registered continuation against the page state current when
it fires: the img.onload body sets imageSrc[item.id] to item.full, adds
item.id to loadedImages and, when an entry was captured, notes it. -/
def runTask (t : PendingTask τ) (s : PageState) : PageState :=
  match t with
  | .imageOnload item entry time =>
    { s with
      imageSrc := objSet s.imageSrc item.id item.full
      loadedImages := setAdd s.loadedImages item.id
      logs :=
        match entry with
        | some e => note e item.id time s.logs
        | none => s.logs }

/-- The callbacks the markup passes to the intersect action. -/
inductive PageCallback (τ : Type) where
  | setActive (sec : String)
  | lazyLoad (item : GalleryItem)
  | reveal (id : String)
  | spyEnter (id : String)
  | spyLeave (id : String)
deriving DecidableEq

/-- The synchronous reaction of the page to one callback invocation,
together with the asynchronous continuations it registers. -/
def runCallback (cb : PageCallback τ) (e : Entry τ) (time : String)
    (s : PageState) : PageState × List (PendingTask τ) :=
  match cb with
  | .setActive sec => ({ s with activeSection := sec }, [])
  | .lazyLoad item => loadFull item (some e) time s
  | .reveal id => (markRevealed id (some e) time s, [])
  | .spyEnter id =>
    ({ s with activeSection := "spy", logs := note e id time s.logs }, [])
  | .spyLeave id => ({ s with logs := note e id time s.logs }, [])

/-- Events of the page world: a loadFull call, the later firing of one of
the registered image onload handlers, or a markRevealed call. -/
inductive WOp (τ : Type) where
  | loadFullCall (item : GalleryItem) (entry : Option (Entry τ)) (time : String)
  | imageLoadFires (i : Nat)
  | markRevealedCall (id : String) (entry : Option (Entry τ)) (time : String)
deriving DecidableEq

/-- Page state plus the image onload handlers registered but not fired. -/
structure World (τ : Type) where
  page : PageState
  pending : List (PendingTask τ)

/-- Initial world: the initial page state and nothing pending. -/
def initialWorld : World τ :=
  { page := initialPage, pending := [] }

/-- One world event.  An image load event fires an arbitrary registered
handler; firing an index with no handler is a no-op. -/
def wStep (w : World τ) (op : WOp τ) : World τ :=
  match op with
  | .loadFullCall item entry time =>
    let r := loadFull item entry time w.page
    { page := r.1, pending := w.pending ++ r.2 }
  | .imageLoadFires i =>
    match w.pending[i]? with
    | some task => { page := runTask task w.page, pending := w.pending.eraseIdx i }
    | none => w
  | .markRevealedCall id entry time =>
    { w with page := markRevealed id entry time w.page }

/-- Running a sequence of world events. -/
def wRun (w : World τ) (l : List (WOp τ)) : World τ :=
  l.foldl wStep w

/-- The event is part of the lazy-image story: a loadFull call on an
actual gallery card, or an image load event.  The page only ever calls
loadFull with a member of gallery. -/
def GalleryLoadOp : WOp τ → Prop
  | .loadFullCall item _ _ => item ∈ gallery
  | .imageLoadFires _ => True
  | .markRevealedCall _ _ _ => False

/-- Every pending handler is about an actual gallery card. -/
def PendingValid (w : World τ) : Prop :=
  ∀ t ∈ w.pending, taskItem t ∈ gallery

/-- Concrete params with every field absent. -/
def emptyParams : IntersectionParams String String := {}

/-- Concrete params with once set and both callbacks bound. -/
def paramsOnce : IntersectionParams String String :=
  { once := some true, onEnter := some "onEnterCb", onLeave := some "onLeaveCb" }

/-- Concrete once-observer attached to one node. -/
def aOnce : ActionState String String := intersect "node" paramsOnce

/-- Concrete intersecting entry for that node. -/
def eNode : Entry String :=
  { target := "node", isIntersecting := true, intersectionRatio := 1 / 2 }

/-- Concrete params whose root is present and non-null. -/
def pRootSome : IntersectionParams String String := { root := some (some "rootElem") }

/-- Concrete params whose root is present but null. -/
def pRootNull : IntersectionParams String String := { root := some none }

/-- Concrete params with threshold, rootMargin, once and onEnter set. -/
def pPrev : IntersectionParams String String :=
  { threshold := some (Threshold.single 1), rootMargin := some "10px",
    once := some true, onEnter := some "cbE" }

/-- Concrete update params supplying only a threshold. -/
def pNext : IntersectionParams String String :=
  { threshold := some (Threshold.single (1 / 2)) }

/-- Concrete action state built from pPrev. -/
def aPrev : ActionState String String := intersect "n2" pPrev

/-- Concrete intersecting entry reported for the aurora card. -/
def eAurora : Entry String :=
  { target := "aurora", isIntersecting := true, intersectionRatio := 1 }

/-- Concrete page state with one revealed block. -/
def sRev : PageState := { initialPage with revealed := ["io-batching"] }

/-- Concrete world events: one markRevealed call. -/
def wOps1 : List (WOp String) := [WOp.markRevealedCall "io-batching" none "t1"]

/-- Concrete world events: a loadFull call whose image then loads. -/
def wOps2 : List (WOp String) :=
  [WOp.loadFullCall aurora none "t2", WOp.imageLoadFires 0]

/-- Concrete lazy-image events: a loadFull call whose image then loads. -/
def loadOpsW : List (WOp String) :=
  [WOp.loadFullCall aurora none "t4", WOp.imageLoadFires 0]

/-- handleEntry invokes exactly the callbacks entryEvents describes. -/
theorem handleEntry_events (p : IntersectionParams τ κ) (w : List τ) (e : Entry τ) :
    (handleEntry p w e).2 = entryEvents p e := by
  cases h : e.isIntersecting
  · rcases ho : p.onLeave with _ | cb <;> simp [handleEntry, entryEvents, h, ho]
  · rcases ho : p.onEnter with _ | cb <;> simp [handleEntry, entryEvents, h, ho]

/-- handleEntry never adds a target to the watched set. -/
theorem handleEntry_watched (p : IntersectionParams τ κ) (w : List τ) (e : Entry τ) :
    ∀ x ∈ (handleEntry p w e).1, x ∈ w := by
  intro x hx
  cases h : e.isIntersecting
  · simpa [handleEntry, h] using hx
  · simp only [handleEntry, h, if_true] at hx
    by_cases ho : p.once = some true
    · simp [ho] at hx
      exact hx.1
    · simpa [ho] using hx

/-- handleEntries never adds a target to the watched set. -/
theorem handleEntries_watched (p : IntersectionParams τ κ) (w : List τ)
    (es : List (Entry τ)) : ∀ x ∈ (handleEntries p w es).1, x ∈ w := by
  induction es generalizing w with
  | nil => intro x hx; simpa [handleEntries] using hx
  | cons e es ih =>
    intro x hx
    simp only [handleEntries] at hx
    exact handleEntry_watched p w e x (ih (handleEntry p w e).1 x hx)

/-- The callback trace of a batch is the concatenation, in batch order,
of the invocations each entry gives rise to. -/
theorem handleEntries_events (p : IntersectionParams τ κ) (w : List τ)
    (es : List (Entry τ)) :
    (handleEntries p w es).2 = es.flatMap (entryEvents p) := by
  induction es generalizing w with
  | nil => simp [handleEntries]
  | cons e es ih =>
    simp [handleEntries, handleEntry_events, ih, List.flatMap_cons]

/-- With once set, the target of every intersecting entry of the batch
has been unobserved once the batch is handled. -/
theorem handleEntries_once_removed (p : IntersectionParams τ κ) (w : List τ)
    (es : List (Entry τ)) (honce : p.once = some true) (e : Entry τ)
    (hi : e.isIntersecting = true) :
    e ∈ es → e.target ∉ (handleEntries p w es).1 := by
  induction es generalizing w with
  | nil => intro he; cases he
  | cons e0 es ih =>
    intro he hx
    simp only [handleEntries] at hx
    rcases List.mem_cons.mp he with rfl | hmem
    · have h1 : e.target ∈ (handleEntry p w e).1 :=
        handleEntries_watched p _ es e.target hx
      simp [handleEntry, hi, honce] at h1
    · exact ih (handleEntry p w e0).1 hmem hx

/-- Every event of entryEvents carries the entry it was built from. -/
theorem entryEvents_entryOf (p : IntersectionParams τ κ) (e : Entry τ)
    (ev : CbEvent τ κ) (hev : ev ∈ entryEvents p e) : ev.entryOf = e := by
  cases h : e.isIntersecting
  · rcases ho : p.onLeave with _ | cb <;> simp [entryEvents, h, ho] at hev
    subst hev; rfl
  · rcases ho : p.onEnter with _ | cb <;> simp [entryEvents, h, ho] at hev
    subst hev; rfl

/-- Claim C1: delivering a batch to an observer created by the intersect
action invokes the current onEnter callback with every intersecting
entry and the current onLeave callback with every non-intersecting entry
(each when set), in batch order; and when once is set, the target of
every intersecting entry is unobserved immediately, so a later batch
(which can only report still-watched targets) delivers no further
callback for that target. -/
theorem intersect_dispatch_and_once (a : ActionState τ κ) (es : List (Entry τ)) :
    (deliver a es).2 = es.flatMap (entryEvents a.current)
    ∧ (a.current.once = some true →
        ∀ e ∈ es, e.isIntersecting = true →
          e.target ∉ (deliver a es).1.watched
          ∧ ∀ es2 : List (Entry τ),
              (∀ e2 ∈ es2, e2.target ∈ (deliver a es).1.watched) →
              ∀ ev ∈ (deliver (deliver a es).1 es2).2,
                (CbEvent.entryOf ev).target ≠ e.target) := by
  constructor
  · exact handleEntries_events a.current a.watched es
  · intro honce e he hi
    have hrem : e.target ∉ (deliver a es).1.watched :=
      handleEntries_once_removed a.current a.watched es honce e hi he
    refine ⟨hrem, ?_⟩
    intro es2 hvalid ev hev
    have htr : (deliver (deliver a es).1 es2).2
        = es2.flatMap (entryEvents a.current) :=
      handleEntries_events a.current (deliver a es).1.watched es2
    rw [htr] at hev
    obtain ⟨e2, he2, hev2⟩ := List.mem_flatMap.mp hev
    rw [entryEvents_entryOf a.current e2 ev hev2]
    intro heq
    exact hrem (heq ▸ hvalid e2 he2)

/-- Witness for intersect_dispatch_and_once: a concrete once-observer and
a singleton intersecting batch, after which the node is unwatched. -/
theorem intersect_dispatch_and_once_witness :
    aOnce.current.once = some true
    ∧ eNode ∈ [eNode]
    ∧ eNode.isIntersecting = true
    ∧ Entry.target eNode ∉ (deliver aOnce [eNode]).1.watched :=
  ⟨rfl, by simp, rfl,
    ((intersect_dispatch_and_once aOnce [eNode]).2 rfl eNode (by simp) rfl).1⟩

/-- Claim C8: destroy disconnects the observer: afterwards nothing is
watched, so a batch (which can only report watched targets) must be
empty and delivers no callbacks; node, opts and current are unchanged. -/
theorem destroy_disconnects (a : ActionState τ κ) :
    (destroy a).watched = []
    ∧ (destroy a).node = a.node
    ∧ (destroy a).opts = a.opts
    ∧ (destroy a).current = a.current
    ∧ ∀ es : List (Entry τ),
        (∀ e ∈ es, e.target ∈ (destroy a).watched) →
        (deliver (destroy a) es).2 = [] := by
  refine ⟨rfl, rfl, rfl, rfl, ?_⟩
  intro es hvalid
  cases es with
  | nil => rfl
  | cons e es => exact absurd (hvalid e (by simp)) (by simp [destroy])

/-- Witness for destroy_disconnects at a concrete action state. -/
theorem destroy_disconnects_witness :
    (deliver (destroy aOnce) ([] : List (Entry String))).2 = [] :=
  (destroy_disconnects aOnce).2.2.2.2 [] (by simp)

/-- Claim C9: attaching with omitted root, rootMargin or threshold uses
the defaults null, '0px' and 0.25, independently per omitted field. -/
theorem intersect_defaults (node : τ) (params : IntersectionParams τ κ) :
    (params.root = none → (intersect node params).opts.root = none)
    ∧ (params.rootMargin = none → (intersect node params).opts.rootMargin = "0px")
    ∧ (params.threshold = none →
        (intersect node params).opts.threshold = Threshold.single (1 / 4)) := by
  refine ⟨fun h => ?_, fun h => ?_, fun h => ?_⟩ <;> simp [intersect, h]

/-- Witness for intersect_defaults: params with all three fields absent. -/
theorem intersect_defaults_witness :
    emptyParams.root = none
    ∧ emptyParams.rootMargin = none
    ∧ emptyParams.threshold = none
    ∧ (intersect "node" emptyParams).opts.root = none
    ∧ (intersect "node" emptyParams).opts.rootMargin = "0px"
    ∧ (intersect "node" emptyParams).opts.threshold = Threshold.single (1 / 4) :=
  ⟨rfl, rfl, rfl,
    (intersect_defaults "node" emptyParams).1 rfl,
    (intersect_defaults "node" emptyParams).2.1 rfl,
    (intersect_defaults "node" emptyParams).2.2 rfl⟩

/-- Counterexample to claim C2 as stated: a root supplied as null in the
new params is a present field, yet the recreated observer keeps the
previous root, because next.root ?? opts.root skips the null. -/
theorem intersect_update_root_null_cex :
    pRootNull.root = some none
    ∧ (update (intersect "n" pRootSome) pRootNull).opts.root = some "rootElem"
    ∧ (update (intersect "n" pRootSome) pRootNull).opts.root ≠ none := by
  refine ⟨rfl, rfl, ?_⟩
  decide

/-- Claim C2 amended: update discards the observer and recreates one
watching the node; a field present in the new params takes effect (in
the merged current, and in the rebuilt opts for rootMargin and
threshold) and an absent field keeps its previous value - except a root
supplied as null, which also keeps the previous observer root. -/
theorem intersect_update_merge (a : ActionState τ κ)
    (next : IntersectionParams τ κ) :
    (update a next).watched = [a.node]
    ∧ (update a next).node = a.node
    ∧ (∀ t, next.threshold = some t →
        (update a next).opts.threshold = t
        ∧ (update a next).current.threshold = some t)
    ∧ (next.threshold = none →
        (update a next).opts.threshold = a.opts.threshold
        ∧ (update a next).current.threshold = a.current.threshold)
    ∧ (∀ m, next.rootMargin = some m →
        (update a next).opts.rootMargin = m
        ∧ (update a next).current.rootMargin = some m)
    ∧ (next.rootMargin = none →
        (update a next).opts.rootMargin = a.opts.rootMargin
        ∧ (update a next).current.rootMargin = a.current.rootMargin)
    ∧ (∀ r, next.root = some (some r) → (update a next).opts.root = some r)
    ∧ (next.root = some none → (update a next).opts.root = a.opts.root)
    ∧ (next.root = none → (update a next).opts.root = a.opts.root)
    ∧ (∀ r, next.root = some r → (update a next).current.root = some r)
    ∧ (next.root = none → (update a next).current.root = a.current.root)
    ∧ (∀ b, next.once = some b → (update a next).current.once = some b)
    ∧ (next.once = none → (update a next).current.once = a.current.once)
    ∧ (∀ cb, next.onEnter = some cb → (update a next).current.onEnter = some cb)
    ∧ (next.onEnter = none → (update a next).current.onEnter = a.current.onEnter)
    ∧ (∀ cb, next.onLeave = some cb → (update a next).current.onLeave = some cb)
    ∧ (next.onLeave = none →
        (update a next).current.onLeave = a.current.onLeave) := by
  refine ⟨rfl, rfl, fun t h => ?_, fun h => ?_, fun m h => ?_, fun h => ?_,
    fun r h => ?_, fun h => ?_, fun h => ?_, fun r h => ?_, fun h => ?_,
    fun b h => ?_, fun h => ?_, fun cb h => ?_, fun h => ?_, fun cb h => ?_,
    fun h => ?_⟩ <;>
    simp [update, h]

/-- Witness for intersect_update_merge: a present threshold takes effect
and an absent rootMargin keeps its previous value. -/
theorem intersect_update_merge_witness :
    pNext.threshold = some (Threshold.single (1 / 2))
    ∧ (update aPrev pNext).opts.threshold = Threshold.single (1 / 2)
    ∧ pNext.rootMargin = none
    ∧ (update aPrev pNext).opts.rootMargin = aPrev.opts.rootMargin :=
  ⟨rfl,
    ((intersect_update_merge aPrev pNext).2.2.1 (Threshold.single (1 / 2)) rfl).1,
    rfl,
    ((intersect_update_merge aPrev pNext).2.2.2.2.2.1 rfl).1⟩

/-- note always returns at most ten rows. -/
theorem note_length_le (e : Entry τ) (id time : String) (logs : List LogEntry) :
    (note e id time logs).length ≤ 10 := by
  simp only [note, List.length_take, List.length_cons]
  omega

/-- Claim C3: the event log never exceeds 10 entries: after any sequence
of note calls starting from the empty log the length is at most 10; each
prefix of a longer sequence is itself such a sequence, so the bound
holds after every call. -/
theorem note_log_length_le_ten (calls : List (Entry String × String × String)) :
    (calls.foldl (fun logs c => note c.1 c.2.1 c.2.2 logs) []).length ≤ 10 := by
  suffices h : ∀ logs : List LogEntry, logs.length ≤ 10 →
      (calls.foldl (fun logs c => note c.1 c.2.1 c.2.2 logs) logs).length ≤ 10 by
    exact h [] (by simp)
  induction calls with
  | nil => intro logs hl; simpa using hl
  | cons c cs ih =>
    intro logs hl
    simpa using ih (note c.1 c.2.1 c.2.2 logs) (note_length_le c.1 c.2.1 c.2.2 logs)

/-- Claim C4: note keeps the log newest first: the result is the newly
built record (the given id, the rounded ratio, enter iff the entry is
intersecting, the formatted time) followed by the first nine previous
records in their previous order. -/
theorem note_prepends_and_truncates (e : Entry τ) (id time : String)
    (logs : List LogEntry) :
    note e id time logs =
      { id := id
        ratio := roundRatio e.intersectionRatio
        direction := if e.isIntersecting then Direction.enter else Direction.leave
        time := time } :: logs.take 9 := rfl

/-- Claim C10: markRevealed on an already revealed id, with or without an
entry, changes nothing: the whole page state is returned unchanged, so
in particular no duplicate log record is appended. -/
theorem markRevealed_idempotent_on_repeat (id : String)
    (entry : Option (Entry τ)) (time : String) (s : PageState)
    (h : id ∈ s.revealed) :
    markRevealed id entry time s = s := by
  simp [markRevealed, h]

/-- Witness for markRevealed_idempotent_on_repeat at a concrete state. -/
theorem markRevealed_idempotent_witness :
    "io-batching" ∈ sRev.revealed
    ∧ markRevealed "io-batching" (none : Option (Entry String)) "t" sRev = sRev :=
  ⟨by simp [sRev],
    markRevealed_idempotent_on_repeat "io-batching" none "t" sRev (by simp [sRev])⟩

/-- setAdd keeps every existing member. -/
theorem mem_setAdd_of_mem {s : List String} {x a : String} (h : x ∈ s) :
    x ∈ setAdd s a := by
  by_cases ha : a ∈ s <;> simp [setAdd, ha, h]

/-- loadFull changes no page state synchronously. -/
theorem loadFull_fst (item : GalleryItem) (entry : Option (Entry τ))
    (time : String) (s : PageState) :
    (loadFull item entry time s).1 = s := by
  by_cases h : s.imageSrc item.id = some item.full <;> simp [loadFull, h]

/-- One world event never removes a member of loadedImages or revealed. -/
theorem wStep_mono (w : World τ) (op : WOp τ) (x : String) :
    (x ∈ w.page.loadedImages → x ∈ (wStep w op).page.loadedImages)
    ∧ (x ∈ w.page.revealed → x ∈ (wStep w op).page.revealed) := by
  cases op with
  | loadFullCall item entry time => simp [wStep, loadFull_fst]
  | imageLoadFires i =>
    cases hp : w.pending[i]? with
    | none => simp [wStep, hp]
    | some task =>
      cases task with
      | imageOnload item entry time =>
        constructor
        · intro h
          simp only [wStep, hp, runTask]
          exact mem_setAdd_of_mem h
        · intro h
          simpa [wStep, hp, runTask] using h
  | markRevealedCall id entry time =>
    constructor
    · intro h
      by_cases hid : id ∈ w.page.revealed <;>
        simpa [wStep, markRevealed, hid] using h
    · intro h
      by_cases hid : id ∈ w.page.revealed
      · simpa [wStep, markRevealed, hid] using h
      · simp only [wStep, markRevealed, hid, if_false]
        exact mem_setAdd_of_mem h

/-- Running events never removes a member of loadedImages or revealed. -/
theorem wRun_mono (w : World τ) (l : List (WOp τ)) (x : String) :
    (x ∈ w.page.loadedImages → x ∈ (wRun w l).page.loadedImages)
    ∧ (x ∈ w.page.revealed → x ∈ (wRun w l).page.revealed) := by
  induction l generalizing w with
  | nil => exact ⟨fun h => h, fun h => h⟩
  | cons op ops ih =>
    constructor
    · intro h
      exact (ih (wStep w op)).1 ((wStep_mono w op x).1 h)
    · intro h
      exact (ih (wStep w op)).2 ((wStep_mono w op x).2 h)

/-- Claim C5: membership of loadedImages and revealed is one-way: along
any sequence of loadFull calls (with their image load events) and
markRevealed calls from the initial page, an identifier once present in
either set is still present after any further such events. -/
theorem loaded_revealed_monotone (l1 l2 : List (WOp τ)) (x : String) :
    (x ∈ (wRun initialWorld l1).page.loadedImages →
      x ∈ (wRun initialWorld (l1 ++ l2)).page.loadedImages)
    ∧ (x ∈ (wRun initialWorld l1).page.revealed →
      x ∈ (wRun initialWorld (l1 ++ l2)).page.revealed) := by
  constructor
  · intro h
    rw [wRun, List.foldl_append]
    exact (wRun_mono (wRun initialWorld l1) l2 x).1 h
  · intro h
    rw [wRun, List.foldl_append]
    exact (wRun_mono (wRun initialWorld l1) l2 x).2 h

/-- Witness for loaded_revealed_monotone: a revealed id stays revealed
after a later lazy-image load completes. -/
theorem loaded_revealed_monotone_witness :
    "io-batching" ∈ (wRun initialWorld wOps1).page.revealed
    ∧ "io-batching" ∈ (wRun initialWorld (wOps1 ++ wOps2)).page.revealed :=
  ⟨by decide, (loaded_revealed_monotone wOps1 wOps2 "io-batching").2 (by decide)⟩

/-- Distinct gallery cards have distinct ids, so the id of a gallery card
determines its two image URLs. -/
theorem gallery_id_det : ∀ a ∈ gallery, ∀ b ∈ gallery,
    a.id = b.id → a.blur = b.blur ∧ a.full = b.full := by
  intro a ha b hb h
  simp only [gallery, List.mem_cons, List.not_mem_nil, or_false] at ha hb
  rcases ha with rfl | rfl | rfl | rfl <;> rcases hb with rfl | rfl | rfl | rfl <;>
    revert h <;> decide

/-- Initially every gallery card shows its blur URL. -/
theorem initialPage_imageSrc (item : GalleryItem) (hmem : item ∈ gallery) :
    initialPage.imageSrc item.id = some item.blur := by
  simp only [gallery, List.mem_cons, List.not_mem_nil, or_false] at hmem
  rcases hmem with rfl | rfl | rfl | rfl <;> decide

/-- One lazy-image event preserves pending validity, keeps the shown
source of a gallery card one of its two URLs, and never changes a source
away from the full URL. -/
theorem wStep_imageSrc (item : GalleryItem) (hmem : item ∈ gallery)
    (op : WOp τ) (hop : GalleryLoadOp op) (w : World τ) (hw : PendingValid w) :
    PendingValid (wStep w op)
    ∧ ((w.page.imageSrc item.id = some item.blur
        ∨ w.page.imageSrc item.id = some item.full) →
       ((wStep w op).page.imageSrc item.id = some item.blur
        ∨ (wStep w op).page.imageSrc item.id = some item.full))
    ∧ (w.page.imageSrc item.id = some item.full →
        (wStep w op).page.imageSrc item.id = some item.full) := by
  cases op with
  | markRevealedCall id entry time => simp [GalleryLoadOp] at hop
  | loadFullCall item2 entry time =>
    have hm2 : item2 ∈ gallery := hop
    refine ⟨?_, ?_, ?_⟩
    · intro t ht
      simp only [wStep] at ht
      rcases List.mem_append.mp ht with h1 | h1
      · exact hw t h1
      · by_cases hg : w.page.imageSrc item2.id = some item2.full <;>
          simp [loadFull, hg] at h1
        subst h1
        simpa [taskItem] using hm2
    · intro h
      simpa [wStep, loadFull_fst] using h
    · intro h
      simpa [wStep, loadFull_fst] using h
  | imageLoadFires i =>
    cases hp : w.pending[i]? with
    | none =>
      refine ⟨?_, ?_, ?_⟩ <;> simp only [wStep, hp]
      · exact hw
      · exact fun h => h
      · exact fun h => h
    | some task =>
      cases task with
      | imageOnload item2 entry time =>
        have hm2 : item2 ∈ gallery := by
          have ht : PendingTask.imageOnload item2 entry time ∈ w.pending := by
            rcases List.getElem?_eq_some.mp hp with ⟨hlt, hv⟩
            exact hv ▸ List.getElem_mem hlt
          simpa [taskItem] using hw _ ht
        refine ⟨?_, ?_, ?_⟩
        · intro t ht
          simp only [wStep, hp] at ht
          exact hw t (List.eraseIdx_subset _ _ ht)
        · intro h
          simp only [wStep, hp, runTask]
          by_cases hid : item.id = item2.id
          · right
            have hdet := gallery_id_det item2 hm2 item hmem hid.symm
            simp [objSet, hid, hdet.2]
          · rcases h with h | h
            · left
              simp only [objSet, if_neg hid]
              exact h
            · right
              simp only [objSet, if_neg hid]
              exact h
        · intro h
          simp only [wStep, hp, runTask]
          by_cases hid : item.id = item2.id
          · have hdet := gallery_id_det item2 hm2 item hmem hid.symm
            simp [objSet, hid, hdet.2]
          · simp only [objSet, if_neg hid]
            exact h

/-- Along any sequence of lazy-image events from a world whose pending
handlers are valid, pending validity is preserved, the shown source of a
gallery card stays one of its two URLs, and the full URL is absorbing. -/
theorem wRun_imageSrc (item : GalleryItem) (hmem : item ∈ gallery)
    (l : List (WOp τ)) :
    ∀ w : World τ, (∀ op ∈ l, GalleryLoadOp op) → PendingValid w →
      PendingValid (wRun w l)
      ∧ ((w.page.imageSrc item.id = some item.blur
          ∨ w.page.imageSrc item.id = some item.full) →
         ((wRun w l).page.imageSrc item.id = some item.blur
          ∨ (wRun w l).page.imageSrc item.id = some item.full))
      ∧ (w.page.imageSrc item.id = some item.full →
          (wRun w l).page.imageSrc item.id = some item.full) := by
  induction l with
  | nil => exact fun w _ hw => ⟨hw, fun h => h, fun h => h⟩
  | cons op ops ih =>
    intro w hl hw
    have hop : GalleryLoadOp op := hl op (by simp)
    have hstep := wStep_imageSrc item hmem op hop w hw
    have hrest := ih (wStep w op) (fun o ho => hl o (by simp [ho])) hstep.1
    exact ⟨hrest.1, fun h => hrest.2.1 (hstep.2.1 h),
      fun h => hrest.2.2 (hstep.2.2 h)⟩

/-- Claim C6: the displayed source of each gallery card starts as its
blur URL, only ever holds the blur or the full URL along any sequence of
loadFull calls on gallery cards and their image load events, and once it
equals the full URL it never changes again under further such events:
the source transitions at most once. -/
theorem imageSrc_two_values_absorbing (item : GalleryItem)
    (hmem : item ∈ gallery) (l1 l2 : List (WOp τ))
    (h1 : ∀ op ∈ l1, GalleryLoadOp op) (h2 : ∀ op ∈ l2, GalleryLoadOp op) :
    initialPage.imageSrc item.id = some item.blur
    ∧ ((wRun initialWorld l1).page.imageSrc item.id = some item.blur
       ∨ (wRun initialWorld l1).page.imageSrc item.id = some item.full)
    ∧ ((wRun initialWorld l1).page.imageSrc item.id = some item.full →
        (wRun initialWorld (l1 ++ l2)).page.imageSrc item.id = some item.full) := by
  have hinit := initialPage_imageSrc item hmem
  have hpv : PendingValid (initialWorld : World τ) := by
    intro t ht
    simp [initialWorld] at ht
  have hrun1 := wRun_imageSrc item hmem l1 initialWorld h1 hpv
  refine ⟨hinit, hrun1.2.1 (Or.inl hinit), ?_⟩
  intro hfull
  have hrun2 := wRun_imageSrc item hmem l2 (wRun initialWorld l1) h2 hrun1.1
  rw [wRun, List.foldl_append]
  exact hrun2.2.2 hfull

/-- Witness for imageSrc_two_values_absorbing: the aurora card and a
completed lazy load, followed by no further events. -/
theorem imageSrc_two_values_witness :
    aurora ∈ gallery ∧ initialPage.imageSrc aurora.id = some aurora.blur :=
  ⟨by simp [gallery],
    (imageSrc_two_values_absorbing aurora (by simp [gallery]) loadOpsW []
      (by
        intro op hop
        simp only [loadOpsW, List.mem_cons, List.not_mem_nil, or_false] at hop
        rcases hop with rfl | rfl
        · simp [GalleryLoadOp, gallery]
        · simp [GalleryLoadOp])
      (by simp)).1⟩

/-- Counterexample to claim C7 as stated: delivering an intersecting
entry for a not yet loaded gallery card runs loadFull, whose synchronous
part leaves the page state untouched and registers an image onload
continuation; that later asynchronous continuation, not the observer
callback, performs the imageSrc mutation. -/
theorem lazy_load_async_mutation_cex :
    (runCallback (PageCallback.lazyLoad aurora) eAurora "t0" initialPage).2
      = [PendingTask.imageOnload aurora (some eAurora) "t0"]
    ∧ (runCallback (PageCallback.lazyLoad aurora) eAurora "t0"
        initialPage).1.imageSrc aurora.id = some aurora.blur
    ∧ (runTask (PendingTask.imageOnload aurora (some eAurora) "t0")
        (runCallback (PageCallback.lazyLoad aurora) eAurora "t0"
          initialPage).1).imageSrc aurora.id = some aurora.full
    ∧ aurora.blur ≠ aurora.full := by
  refine ⟨?_, ?_, ?_, ?_⟩ <;> decide

/-- Claim C7 amended: the page reacts to a delivered entry synchronously
except on the lazy-image path: a callback other than lazyLoad mutates
state only synchronously and registers no continuation, while lazyLoad
mutates nothing synchronously and registers only image onload
continuations, which perform the imageSrc, loadedImages and log
mutations when the image load event later fires. -/
theorem page_sync_except_image_load (cb : PageCallback τ) (e : Entry τ)
    (time : String) (s : PageState) :
    ((∀ item, cb ≠ PageCallback.lazyLoad item) → (runCallback cb e time s).2 = [])
    ∧ (∀ item, cb = PageCallback.lazyLoad item →
        (runCallback cb e time s).1 = s
        ∧ ∀ task ∈ (runCallback cb e time s).2,
            task = PendingTask.imageOnload item (some e) time) := by
  cases cb with
  | setActive sec => exact ⟨fun _ => rfl, fun item h => PageCallback.noConfusion h⟩
  | reveal id => exact ⟨fun _ => rfl, fun item h => PageCallback.noConfusion h⟩
  | spyEnter id => exact ⟨fun _ => rfl, fun item h => PageCallback.noConfusion h⟩
  | spyLeave id => exact ⟨fun _ => rfl, fun item h => PageCallback.noConfusion h⟩
  | lazyLoad item0 =>
    constructor
    · intro h
      exact absurd rfl (h item0)
    · intro item h
      injection h with h0
      subst h0
      refine ⟨loadFull_fst item0 (some e) time s, ?_⟩
      intro task ht
      simp only [runCallback] at ht
      by_cases hg : s.imageSrc item0.id = some item0.full <;>
        simp [loadFull, hg] at ht
      exact ht

/-- Witness for page_sync_except_image_load: a reveal callback registers
no asynchronous continuation. -/
theorem page_sync_except_image_load_witness :
    (runCallback (PageCallback.reveal "precision") eAurora "t3" initialPage).2
      = ([] : List (PendingTask String)) :=
  (page_sync_except_image_load (PageCallback.reveal "precision") eAurora "t3"
      initialPage).1 (fun item h => PageCallback.noConfusion h)

end IntersectionLab
